import Mathlib

/-!
Verification model of the Multiple-PDF-RAG backend
(`src/backend/pdf_processor.py` and `src/backend/llm_service.py`).

Shallow embedding conventions:
* Text (file bytes, page text, chunk content, queries) is `List Char`.
* Python dicts (`self.vectorstores`, `self.pdf_names`, `self.documents`)
  are insertion-ordered association lists `List (Nat × _)`; `uuid.uuid4()`
  is modelled as a fresh-id counter `nextId` on the manager state, since
  the only property the code relies on is freshness/uniqueness.
* External collaborators (PyPDFLoader page extraction, FAISS index
  construction, the embedding similarity, the chat model) live in an
  `Env` / oracle arguments: page extraction may fail (corrupt PDF) and
  FAISS construction may fail (index-construction failure), matching the
  exception paths of the Python code.
* A Python method that can raise is embedded as
  `Except Err Result × State`: the second component is the state the
  caller observes after the call, whether or not it raised, because in
  Python a raised exception does not roll back mutations of `self`.
-/

deriving instance DecidableEq for Except

namespace PdfRag

/-- Text: page contents, chunk contents, file bytes, queries. -/
abbrev Text := List Char

/-- A chunk produced by splitting, with the metadata the code stamps on
each page before splitting (`page.metadata["source"] = file_name`,
`page.metadata["pdf_id"] = pdf_id`) plus the page number the loader
provides; chunks inherit the page metadata. This is the spec's Segment. -/
structure Segment where
  content : Text
  source : String
  pdfId : Nat
  page : Nat
deriving DecidableEq, Repr

/-- A FAISS vector store, modelled by the documents it was built from
(`FAISS.from_documents(docs, embeddings)` indexes exactly `docs`). -/
structure VectorStore where
  docs : List Segment
deriving DecidableEq, Repr

/-- External collaborators of the registry. -/
structure Env where
  /-- `PyPDFLoader(...).load()`: ordered page texts, or `none` when the
  document cannot be parsed (corrupt/encrypted PDF). -/
  pages : Text → Option (List Text)
  /-- Whether `FAISS.from_documents` succeeds on this input (embedding
  backend / index construction can fail). -/
  faissOk : List Segment → Bool
  /-- Embedding similarity used for retrieval: `score q d` ranks document
  text `d` against query `q`, higher is better; deterministic. -/
  score : Text → Text → Int

/-- The state of `PDFManager` (`pdf_processor.py`, lines 13-20):
three dicts, the combined vector store (initially `None`), and the
fresh-id source standing in for `uuid.uuid4()`. -/
structure PDFManager where
  vectorstores : List (Nat × VectorStore)
  pdf_names : List (Nat × String)
  documents : List (Nat × List Segment)
  combined_vectorstore : Option VectorStore
  nextId : Nat
deriving DecidableEq, Repr

/-- `PDFManager.__init__`: empty dicts, no combined store. -/
def initManager : PDFManager :=
  { vectorstores := [], pdf_names := [], documents := [],
    combined_vectorstore := none, nextId := 0 }

/-- Fuel-indexed worker for `chunkText`; each recursive step consumes at
least `size - ov ≥ 1` characters, so fuel `s.length` is always enough
(`chunkTextAux_fuel` below makes the fuel irrelevance precise). -/
def chunkTextAux (size ov : Nat) : Nat → Text → List Text
  | 0, s => [s]
  | fuel + 1, s =>
    if s.length ≤ size ∨ size ≤ ov then [s]
    else s.take size :: chunkTextAux size ov fuel (s.drop (size - ov))

/-- Modelled from the spec: the repository delegates chunking to
langchain's `RecursiveCharacterTextSplitter(chunk_size, chunk_overlap)`,
whose code is not part of this repository.  The spec describes it as
splitting into segments of a fixed target length with a fixed overlap
between consecutive segments, with a hard fallback to a straight cut:
a text short enough is one chunk; otherwise the first `size` characters
form a chunk and splitting continues `size - ov` characters further in,
so consecutive chunks share `ov` characters. -/
def chunkText (size ov : Nat) (s : Text) : List Text :=
  chunkTextAux size ov s.length s

/-- A page after the metadata-stamping loop of `process_pdf`
(lines 38-41): its text plus `source`, `pdf_id` and the loader's page
number. -/
structure Page where
  content : Text
  source : String
  pdfId : Nat
  page : Nat
deriving DecidableEq, Repr

/-- The stamping loop: page `i` of the loaded document gets
`source = file_name` and `pdf_id = pdf_id`. -/
def stampPages (ps : List Text) (name : String) (pid : Nat) : List Page :=
  ps.enum.map fun x => { content := x.2, source := name, pdfId := pid, page := x.1 }

/-- `text_splitter.split_documents(pages)`: every page is split into
chunks, each chunk inheriting its page's metadata. -/
def splitDocuments (size ov : Nat) (ps : List Page) : List Segment :=
  ps.flatMap fun p =>
    (chunkText size ov p.content).map fun c =>
      { content := c, source := p.source, pdfId := p.pdfId, page := p.page }

/-- Errors raised by the manager's operations. -/
inductive PdfErr where
  /-- `PyPDFLoader` failed: unreadable/corrupt document. -/
  | parse
  /-- `FAISS.from_documents` raised. -/
  | faiss
  /-- a Python `del d[k]` on a missing key. -/
  | keyError
deriving DecidableEq, Repr

/-- `PDFManager._update_combined_vectorstore` (lines 77-94):
empty `vectorstores` → plain `return` (the old combined store is NOT
cleared); exactly one → alias that store; two or more → rebuild from the
concatenation of `self.documents`' values (FAISS construction can raise,
in which case `combined_vectorstore` is left untouched). -/
def updateCombined (env : Env) (m : PDFManager) : Except PdfErr PDFManager :=
  match m.vectorstores with
  | [] => .ok m
  | [(_, vs)] => .ok { m with combined_vectorstore := some vs }
  | _ =>
    let all_docs := (m.documents.map Prod.snd).flatten
    if env.faissOk all_docs then
      .ok { m with combined_vectorstore := some { docs := all_docs } }
    else
      .error .faiss

/-- `PDFManager.process_pdf` (lines 22-75): generate a fresh id, load the
pages (may raise), stamp metadata, split into chunks with
`chunk_size=1000, chunk_overlap=200`, store the chunks in
`self.documents`, build the per-document FAISS store (may raise), store
it and the name, then update the combined store (may raise).  The second
component is the manager state the caller observes even when the call
raises. -/
def processPdf (env : Env) (m : PDFManager) (content : Text) (name : String) :
    Except PdfErr Nat × PDFManager :=
  let pdf_id := m.nextId
  let m0 := { m with nextId := m.nextId + 1 }
  match env.pages content with
  | none => (.error .parse, m0)
  | some ps =>
    let splits := splitDocuments 1000 200 (stampPages ps name pdf_id)
    let m1 := { m0 with documents := m0.documents ++ [(pdf_id, splits)] }
    if env.faissOk splits then
      let m2 := { m1 with
        vectorstores := m1.vectorstores ++ [(pdf_id, { docs := splits })],
        pdf_names := m1.pdf_names ++ [(pdf_id, name)] }
      match updateCombined env m2 with
      | .ok m3 => (.ok pdf_id, m3)
      | .error e => (.error e, m2)
    else
      (.error .faiss, m1)

/-- Delete a key from an insertion-ordered dict (Python `del d[k]`,
keys are unique). -/
def eraseKey {α : Type} (l : List (Nat × α)) (i : Nat) : List (Nat × α) :=
  l.filter fun p => p.1 ≠ i

/-- `PDFManager.remove_pdf` (lines 108-117): unknown id → `False`, no
mutation; known id → `del` from the three dicts (`documents` only if
present) and update the combined store, then `True`.  The unconditional
`del self.pdf_names[pdf_id]` raises `KeyError` when the id is missing
there. -/
def removePdf (env : Env) (m : PDFManager) (i : Nat) :
    Except PdfErr Bool × PDFManager :=
  if (m.vectorstores.lookup i).isSome then
    let m1 := { m with vectorstores := eraseKey m.vectorstores i }
    if (m1.pdf_names.lookup i).isSome then
      let m2 := { m1 with pdf_names := eraseKey m1.pdf_names i }
      let m3 :=
        if (m2.documents.lookup i).isSome then
          { m2 with documents := eraseKey m2.documents i }
        else m2
      match updateCombined env m3 with
      | .ok m4 => (.ok true, m4)
      | .error e => (.error e, m3)
    else (.error .keyError, m1)
  else (.ok false, m)

/-- `PDFManager.list_pdfs` (lines 104-106). -/
def listPdfs (m : PDFManager) : List (Nat × String) :=
  m.pdf_names

/-- `PDFManager.get_pdf_name` (lines 100-102). -/
def getPdfName (m : PDFManager) (i : Nat) : Option String :=
  m.pdf_names.lookup i

/-- `vectorstore.as_retriever(search_kwargs={"k": 5})` then retrieval:
the `k` stored segments most similar to the query, ranked by the
similarity score descending; ties keep the store's order (stable sort). -/
def topK (score : Text → Text → Int) (k : Nat) (q : Text) (vs : VectorStore) :
    List Segment :=
  (vs.docs.mergeSort fun a b => score q b.content ≤ score q a.content).take k

/-- The chat model's reply (`llm` in the chain); `StrOutputParser`
extracts its `content`. -/
structure Message where
  content : String
deriving DecidableEq, Repr

/-- Failure of the language-generation backend. -/
inductive GenError where
  | timeout
  | failure (msg : String)
deriving DecidableEq, Repr

/-- The prompt built by `PromptTemplate`: the retrieved segments as
context and the literal user query. -/
structure Prompt where
  context : List Segment
  question : Text
deriving DecidableEq, Repr

/-- The language-generation backend as an oracle: call number `n` with a
prompt yields a reply or a failure. -/
abbrev LLM := Nat → Prompt → Except GenError Message

/-- The sentinel returned when no combined vector store exists
(`llm_service.py`, line 43). -/
def noPdfsMessage : String :=
  "No PDFs have been uploaded yet. Please upload at least one PDF first."

/-- `get_response` (`llm_service.py`, lines 35-80): read the combined
vector store; if it is `None`, return the sentinel without calling the
backend; otherwise retrieve the top-5 segments, compose the prompt, call
the backend once (the call counter advances by one) and return its
output through `StrOutputParser`; a backend failure propagates — there
is no retry.  The `Nat` threaded through is the backend call counter. -/
def getResponse (llm : LLM) (calls : Nat) (score : Text → Text → Int)
    (vs : Option VectorStore) (query : Text) :
    Except GenError String × Nat :=
  match vs with
  | none => (.ok noPdfsMessage, calls)
  | some v =>
    let ctx := topK score 5 query v
    let p : Prompt := { context := ctx, question := query }
    ((llm calls p).map Message.content, calls + 1)

/-- Manager states reachable by sequences of completed (non-raising)
registry operations from the fresh manager. -/
inductive ReachableOk (env : Env) : PDFManager → Prop where
  | init : ReachableOk env initManager
  | add (m : PDFManager) (c : Text) (name : String) (i : Nat) :
      ReachableOk env m → (processPdf env m c name).1 = .ok i →
      ReachableOk env (processPdf env m c name).2
  | remove (m : PDFManager) (i : Nat) (b : Bool) :
      ReachableOk env m → (removePdf env m i).1 = .ok b →
      ReachableOk env (removePdf env m i).2

/-! Concrete scenario used by witnesses and counterexamples: an
environment in which every file decodes to a single page holding its
bytes and index construction always succeeds, plus one in which index
construction always fails. -/

/-- A benign environment: one page per file, FAISS never fails,
a constant similarity score. -/
def demoEnv : Env :=
  { pages := fun c => some [c], faissOk := fun _ => true, score := fun _ _ => 0 }

/-- Environment whose index construction (`FAISS.from_documents`)
always raises. -/
def faissFailEnv : Env :=
  { pages := fun c => some [c], faissOk := fun _ => false, score := fun _ _ => 0 }

/-- The single segment produced by ingesting the two-character file
`"hi"` named `a.pdf` as the first document. -/
def segA : Segment :=
  { content := ['h', 'i'], source := "a.pdf", pdfId := 0, page := 0 }

/-- The per-document store built for that first document. -/
def vsA : VectorStore := { docs := [segA] }

/-- State after ingesting one PDF into a fresh manager. -/
def addedOne : PDFManager :=
  (processPdf demoEnv initManager ['h', 'i'] "a.pdf").2

/-- State after ingesting a second PDF. -/
def addedTwo : PDFManager :=
  (processPdf demoEnv addedOne ['y', 'o'] "b.pdf").2

/-- Result of removing the only document from `addedOne`. -/
def removedAll : Except PdfErr Bool × PDFManager :=
  removePdf demoEnv addedOne 0

/-- Re-ingestion of the identical bytes and name into `addedOne`. -/
def addedAgain : PDFManager :=
  (processPdf demoEnv addedOne ['h', 'i'] "a.pdf").2

/-- The segment the re-ingestion produces: same content, source and
page, but the freshly generated document id `1`. -/
def segB : Segment :=
  { content := ['h', 'i'], source := "a.pdf", pdfId := 1, page := 0 }

/-- A backend oracle that always answers with a fixed reply. -/
def demoLLM : LLM := fun _ _ => .ok { content := "answer from stale index" }

/-- A backend oracle that always times out. -/
def timeoutLLM : LLM := fun _ _ => .error .timeout

/-! ## Helper lemmas -/

/-- Any fuel at least `s.length` computes the same chunking, so
`chunkText` is well defined by its recurrence. -/
theorem chunkTextAux_fuel (size ov : Nat) :
    ∀ f f' (s : Text), s.length ≤ f → s.length ≤ f' →
      chunkTextAux size ov f s = chunkTextAux size ov f' s := by
  intro f
  induction f with
  | zero =>
    intro f' s hf _
    have hs : s = [] := List.eq_nil_of_length_eq_zero (by omega)
    subst hs
    cases f' <;> simp [chunkTextAux]
  | succ f ih =>
    intro f' s hf hf'
    cases f' with
    | zero =>
      cases s with
      | nil => simp [chunkTextAux]
      | cons a t => simp at hf'
    | succ f'' =>
      simp only [chunkTextAux]
      by_cases hbase : s.length ≤ size ∨ size ≤ ov
      · simp [hbase]
      · push_neg at hbase
        simp only [if_neg (by omega : ¬(s.length ≤ size ∨ size ≤ ov))]
        have hd : (s.drop (size - ov)).length = s.length - (size - ov) :=
          List.length_drop _ _
        rw [ih f'' (s.drop (size - ov)) (by omega) (by omega)]

/-- The recurrence the spec describes, as an unfolding lemma for
`chunkText`: long enough text yields the first `size` characters and the
chunking of the text from `size - ov` on. -/
theorem chunkText_cons (size ov : Nat) (s : Text)
    (h1 : size < s.length) (h2 : ov < size) :
    chunkText size ov s = s.take size :: chunkText size ov (s.drop (size - ov)) := by
  unfold chunkText
  obtain ⟨n, hn⟩ : ∃ n, s.length = n + 1 := ⟨s.length - 1, by omega⟩
  rw [hn]
  simp only [chunkTextAux, if_neg (by omega : ¬(s.length ≤ size ∨ size ≤ ov))]
  congr 1
  exact chunkTextAux_fuel size ov n (s.drop (size - ov)).length _
    (by simp [List.length_drop]; omega) le_rfl

/-- Short text is a single chunk. -/
theorem chunkText_single (size ov : Nat) (s : Text) (h : s.length ≤ size) :
    chunkText size ov s = [s] := by
  unfold chunkText
  cases hl : s.length with
  | zero => rfl
  | succ n => simp only [chunkTextAux]; rw [if_pos (Or.inl h)]

/-- With overlap strictly below the target size, every chunk respects
the target length (fuel-indexed version). -/
theorem chunkTextAux_length_le (size ov : Nat) (hov : ov < size) :
    ∀ fuel (s : Text), s.length ≤ fuel →
      ∀ t ∈ chunkTextAux size ov fuel s, t.length ≤ size := by
  intro fuel
  induction fuel with
  | zero =>
    intro s hf t ht
    have hs : s = [] := List.eq_nil_of_length_eq_zero (by omega)
    subst hs
    simp [chunkTextAux] at ht
    simp [ht]
  | succ fuel ih =>
    intro s hf t ht
    simp only [chunkTextAux] at ht
    by_cases hbase : s.length ≤ size ∨ size ≤ ov
    · rw [if_pos hbase] at ht
      simp at ht
      subst ht
      rcases hbase with h | h
      · exact h
      · omega
    · push_neg at hbase
      rw [if_neg (by omega : ¬(s.length ≤ size ∨ size ≤ ov))] at ht
      rcases List.mem_cons.mp ht with rfl | hmem
      · simp [List.length_take]
      · exact ih (s.drop (size - ov)) (by simp [List.length_drop]; omega) t hmem

/-- With overlap strictly below the target size, every chunk respects
the target length. -/
theorem chunkText_length_le (size ov : Nat) (s : Text) (hov : ov < size) :
    ∀ t ∈ chunkText size ov s, t.length ≤ size :=
  chunkTextAux_length_le size ov hov s.length s le_rfl

/-- An association-list lookup succeeds exactly on the stored keys. -/
theorem lookup_isSome_iff {α : Type} (l : List (Nat × α)) (i : Nat) :
    (l.lookup i).isSome = true ↔ i ∈ l.map Prod.fst := by
  induction l with
  | nil => simp [List.lookup]
  | cons p t ih =>
    cases p with
    | mk k v =>
      by_cases hk : i = k
      · subst hk
        simp [List.lookup]
      · have hb : (i == k) = false := beq_eq_false_iff_ne.mpr hk
        simp [List.lookup, hb, ih, hk]

/-- Deleting a key deletes exactly that key from the key list. -/
theorem map_fst_eraseKey {α : Type} (l : List (Nat × α)) (i : Nat) :
    (eraseKey l i).map Prod.fst = (l.map Prod.fst).filter fun k => k ≠ i := by
  induction l with
  | nil => rfl
  | cons p t ih =>
    simp only [eraseKey] at ih ⊢
    by_cases hk : p.1 = i <;> simp [List.filter_cons, hk] <;> simpa using ih

/-- Deleting an absent key is the identity. -/
theorem eraseKey_of_lookup_none {α : Type} (l : List (Nat × α)) (i : Nat)
    (h : l.lookup i = none) : eraseKey l i = l := by
  induction l with
  | nil => rfl
  | cons p t ih =>
    cases p with
    | mk k v =>
      simp only [List.lookup] at h
      by_cases hk : i = k
      · subst hk; simp at h
      · have hb : (i == k) = false := beq_eq_false_iff_ne.mpr hk
        rw [hb] at h
        simp only [eraseKey, List.filter_cons] at ih ⊢
        have hne : (decide (k ≠ i)) = true := decide_eq_true fun e => hk e.symm
        rw [hne]
        simpa using ih h

/-- `_update_combined_vectorstore` never touches the three dicts or the
id source, whether or not it raises. -/
theorem updateCombined_preserves (env : Env) (m m' : PDFManager)
    (h : updateCombined env m = .ok m') :
    m'.vectorstores = m.vectorstores ∧ m'.pdf_names = m.pdf_names ∧
    m'.documents = m.documents ∧ m'.nextId = m.nextId := by
  unfold updateCombined at h
  rcases hv : m.vectorstores with _ | ⟨a, _ | ⟨b, t⟩⟩ <;> rw [hv] at h
  · cases h; simp [hv]
  · cases h; simp [hv]
  · simp only at h
    by_cases hf : env.faissOk ((m.documents.map Prod.snd).flatten) = true
    · rw [if_pos hf] at h
      cases h; simp [hv]
    · rw [if_neg hf] at h
      cases h

/-- When index construction succeeds on the pooled segments,
`_update_combined_vectorstore` completes. -/
theorem updateCombined_ok (env : Env) (m : PDFManager)
    (hf : env.faissOk ((m.documents.map Prod.snd).flatten) = true) :
    ∃ m', updateCombined env m = .ok m' := by
  unfold updateCombined
  rcases hv : m.vectorstores with _ | ⟨a, _ | ⟨b, t⟩⟩
  · exact ⟨m, rfl⟩
  · exact ⟨_, rfl⟩
  · simp only
    rw [if_pos hf]
    exact ⟨_, rfl⟩

/-- What a completed `process_pdf` call does to the registry: the fresh
id is the next one, the chunks of the stamped pages are appended to
`documents`, the per-document store to `vectorstores`, the display name
to `pdf_names`. -/
theorem processPdf_ok_spec (env : Env) (m : PDFManager) (c : Text)
    (name : String) (ps : List Text) (i : Nat) (m' : PDFManager)
    (hp : env.pages c = some ps)
    (h : processPdf env m c name = (.ok i, m')) :
    i = m.nextId ∧ m'.nextId = m.nextId + 1 ∧
    m'.documents = m.documents ++
      [(i, splitDocuments 1000 200 (stampPages ps name i))] ∧
    m'.pdf_names = m.pdf_names ++ [(i, name)] ∧
    m'.vectorstores = m.vectorstores ++
      [(i, { docs := splitDocuments 1000 200 (stampPages ps name i) })] := by
  unfold processPdf at h
  rw [hp] at h
  dsimp only at h
  split at h
  · split at h
    next m3 hu =>
      obtain ⟨heq, rfl⟩ : i = m.nextId ∧ m' = m3 := by
        have h1 := congrArg Prod.fst h
        have h2 := congrArg Prod.snd h
        simp at h1 h2
        exact ⟨h1.symm, h2.symm⟩
      subst heq
      have hpres := updateCombined_preserves env _ _ hu
      refine ⟨rfl, ?_, ?_, ?_, ?_⟩ <;> simp [hpres.1, hpres.2.1, hpres.2.2.1, hpres.2.2.2]
    next e hu => simp at h
  · simp at h

/-- Stamped pages carry the display name and the generated id. -/
theorem mem_stampPages (ps : List Text) (name : String) (i : Nat) (p : Page)
    (hp : p ∈ stampPages ps name i) : p.source = name ∧ p.pdfId = i := by
  simp only [stampPages, List.mem_map] at hp
  obtain ⟨x, _, rfl⟩ := hp
  exact ⟨rfl, rfl⟩

/-- Each emitted segment comes from a page, inherits its metadata, and
its content is one of that page's chunks. -/
theorem mem_splitDocuments (size ov : Nat) (ps : List Page) (s : Segment)
    (hs : s ∈ splitDocuments size ov ps) :
    ∃ p ∈ ps, s.source = p.source ∧ s.pdfId = p.pdfId ∧
      s.content ∈ chunkText size ov p.content := by
  simp only [splitDocuments, List.mem_flatMap, List.mem_map] at hs
  obtain ⟨p, hp, c, hc, rfl⟩ := hs
  exact ⟨p, hp, rfl, rfl, hc⟩

/-- Chunking output stripped of the owning document id does not depend
on the id the pages were stamped with. -/
theorem splitDocuments_strip (size ov : Nat) (ps : List Text) (name : String)
    (i j : Nat) :
    (splitDocuments size ov (stampPages ps name i)).map
        (fun s => (s.content, s.source, s.page)) =
    (splitDocuments size ov (stampPages ps name j)).map
        (fun s => (s.content, s.source, s.page)) := by
  simp only [splitDocuments, stampPages, List.map_flatMap, List.flatMap_map,
    List.map_map]
  rfl

/-! ## Claim theorems -/

/-- C1: the claimed invariant — the merged index always holds exactly
the union of the registered documents' segments, and is absent when zero
documents are registered — fails on the code: adding one document and
then removing it leaves the registry empty while
`combined_vectorstore` still holds the removed document's segment,
because `_update_combined_vectorstore` returns early on an empty
`vectorstores` without clearing the stale store. -/
theorem removing_last_pdf_keeps_stale_merged_index :
    removedAll.1 = .ok true ∧
    removedAll.2.vectorstores = [] ∧
    removedAll.2.pdf_names = [] ∧
    removedAll.2.documents = [] ∧
    removedAll.2.combined_vectorstore = some vsA := by decide

/-- C2: the claim that a query against a registry with zero registered
documents (including one reached by removing every document) returns the
"no documents uploaded" sentinel fails on the code: after add + remove,
`get_response` finds the stale combined store, calls the backend, and
returns the backend's answer rather than the sentinel. -/
theorem query_after_removing_all_is_not_sentinel :
    removedAll.2.pdf_names = [] ∧
    (getResponse demoLLM 0 demoEnv.score removedAll.2.combined_vectorstore
        ['q']).1 = .ok "answer from stale index" ∧
    (getResponse demoLLM 0 demoEnv.score removedAll.2.combined_vectorstore
        ['q']).1 ≠ .ok noPdfsMessage := by decide

/-- C3: with exactly one registered document,
`_update_combined_vectorstore` makes the merged index alias that
document's own per-document index, so any top-K query against the merged
index returns exactly the ranking of the same query against the
per-document index. -/
theorem single_pdf_merged_aliases_per_pdf_index
    (env : Env) (m m' : PDFManager) (i : Nat) (vs : VectorStore)
    (hone : m.vectorstores = [(i, vs)])
    (hu : updateCombined env m = .ok m') :
    m'.combined_vectorstore = some vs ∧
    ∀ k q, Option.map (topK env.score k q) m'.combined_vectorstore =
      some (topK env.score k q vs) := by
  unfold updateCombined at hu
  rw [hone] at hu
  cases hu
  exact ⟨rfl, fun k q => rfl⟩

/-- Witness for C3 at the one-document state `addedOne`. -/
theorem single_pdf_merged_aliases_per_pdf_index_witness :
    addedOne.combined_vectorstore = some vsA ∧
    Option.map (topK demoEnv.score 5 ['q']) addedOne.combined_vectorstore =
      some (topK demoEnv.score 5 ['q'] vsA) :=
  ⟨(single_pdf_merged_aliases_per_pdf_index demoEnv addedOne addedOne 0 vsA
      (by decide) (by decide)).1,
   (single_pdf_merged_aliases_per_pdf_index demoEnv addedOne addedOne 0 vsA
      (by decide) (by decide)).2 5 ['q']⟩

/-- C4: with two or more registered documents,
`_update_combined_vectorstore` rebuilds the merged index from scratch
out of the concatenation of the stored segments of the `documents`
mapping — the per-document indices do not enter the construction. -/
theorem multi_pdf_merged_rebuilt_from_documents
    (env : Env) (m : PDFManager)
    (h2 : 2 ≤ m.vectorstores.length)
    (hf : env.faissOk ((m.documents.map Prod.snd).flatten) = true) :
    updateCombined env m =
      .ok { m with
            combined_vectorstore := some { docs := (m.documents.map Prod.snd).flatten } } := by
  unfold updateCombined
  rcases hv : m.vectorstores with _ | ⟨a, _ | ⟨b, t⟩⟩
  · rw [hv] at h2; simp at h2
  · rw [hv] at h2; simp at h2
  · simp only
    rw [if_pos hf]

/-- Witness for C4 at the two-document state `addedTwo`. -/
theorem multi_pdf_merged_rebuilt_from_documents_witness :
    updateCombined demoEnv addedTwo =
      .ok { addedTwo with
            combined_vectorstore := some { docs := (addedTwo.documents.map Prod.snd).flatten } } :=
  multi_pdf_merged_rebuilt_from_documents demoEnv addedTwo (by decide) rfl

/-- What a completed `remove_pdf` call does: an unknown id leaves the
state untouched and reports `false`; a known id deletes the key from all
three dicts and reports `true`. -/
theorem removePdf_ok_spec (env : Env) (m : PDFManager) (i : Nat)
    (b : Bool) (m' : PDFManager)
    (h : removePdf env m i = (.ok b, m')) :
    (b = false ∧ m' = m ∧ m.vectorstores.lookup i = none) ∨
    (b = true ∧ (m.vectorstores.lookup i).isSome = true ∧
      m'.vectorstores = eraseKey m.vectorstores i ∧
      m'.pdf_names = eraseKey m.pdf_names i ∧
      m'.documents = eraseKey m.documents i ∧
      m'.nextId = m.nextId) := by
  unfold removePdf at h
  by_cases hv : (m.vectorstores.lookup i).isSome = true
  · right
    rw [if_pos hv] at h
    dsimp only at h
    by_cases hn : (m.pdf_names.lookup i).isSome = true
    · rw [if_pos hn] at h
      by_cases hd : (m.documents.lookup i).isSome = true
      · rw [if_pos hd] at h
        split at h
        next m4 hu =>
          obtain ⟨hb, rfl⟩ : b = true ∧ m' = m4 := by
            injection h with h1 h2
            injection h1 with h1
            exact ⟨h1.symm, h2.symm⟩
          have hpres := updateCombined_preserves env _ _ hu
          refine ⟨hb, hv, ?_, ?_, ?_, ?_⟩ <;>
            simp [hpres.1, hpres.2.1, hpres.2.2.1, hpres.2.2.2]
        next e hu => simp at h
      · rw [if_neg hd] at h
        have hdn : m.documents.lookup i = none :=
          Option.not_isSome_iff_eq_none.mp (by simpa using hd)
        split at h
        next m4 hu =>
          obtain ⟨hb, rfl⟩ : b = true ∧ m' = m4 := by
            injection h with h1 h2
            injection h1 with h1
            exact ⟨h1.symm, h2.symm⟩
          have hpres := updateCombined_preserves env _ _ hu
          refine ⟨hb, hv, ?_, ?_, ?_, ?_⟩ <;>
            simp [hpres.1, hpres.2.1, hpres.2.2.1, hpres.2.2.2,
              eraseKey_of_lookup_none _ _ hdn]
        next e hu => simp at h
    · rw [if_neg hn] at h
      simp at h
  · left
    rw [if_neg hv] at h
    injection h with h1 h2
    injection h1 with h1
    exact ⟨h1.symm, h2.symm, Option.not_isSome_iff_eq_none.mp (by simpa using hv)⟩

/-- When index construction cannot fail, removing a known id completes
with `true` and deletes the id from all three dicts. -/
theorem removePdf_present_ok (env : Env) (m : PDFManager) (i : Nat)
    (hfa : ∀ ds, env.faissOk ds = true)
    (hv : (m.vectorstores.lookup i).isSome = true)
    (hn : (m.pdf_names.lookup i).isSome = true) :
    (removePdf env m i).1 = .ok true ∧
    (removePdf env m i).2.vectorstores = eraseKey m.vectorstores i ∧
    (removePdf env m i).2.pdf_names = eraseKey m.pdf_names i ∧
    (removePdf env m i).2.documents = eraseKey m.documents i := by
  rcases hres : removePdf env m i with ⟨r, m'⟩
  have hr : ∃ b, r = .ok b := by
    unfold removePdf at hres
    rw [if_pos hv] at hres
    dsimp only at hres
    rw [if_pos hn] at hres
    by_cases hd : (m.documents.lookup i).isSome = true
    · rw [if_pos hd] at hres
      split at hres
      next m4 hu =>
        injection hres with h1 h2
        exact ⟨true, h1.symm⟩
      next e hu =>
        obtain ⟨m4, hu'⟩ := updateCombined_ok env _ (hfa _)
        rw [hu'] at hu
        cases hu
    · rw [if_neg hd] at hres
      split at hres
      next m4 hu =>
        injection hres with h1 h2
        exact ⟨true, h1.symm⟩
      next e hu =>
        obtain ⟨m4, hu'⟩ := updateCombined_ok env _ (hfa _)
        rw [hu'] at hu
        cases hu
  obtain ⟨b, rfl⟩ := hr
  rcases removePdf_ok_spec env m i b m' hres with ⟨_, _, hnone⟩ | hspec
  · rw [hnone] at hv; simp at hv
  · exact ⟨by rw [hspec.1], hspec.2.2.1, hspec.2.2.2.1, hspec.2.2.2.2.1⟩

/-- C5: removing an unknown id returns `false` and leaves the whole
registry state (all three dicts and the merged index) unchanged;
removing a known id (when index construction does not fail) deletes the
document's segments, name and index and returns `true`. -/
theorem remove_pdf_contract (env : Env) (m : PDFManager) (i : Nat)
    (hfa : ∀ ds, env.faissOk ds = true)
    (hkeys : m.vectorstores.map Prod.fst = m.pdf_names.map Prod.fst) :
    (m.vectorstores.lookup i = none → removePdf env m i = (.ok false, m)) ∧
    ((m.vectorstores.lookup i).isSome = true →
      (removePdf env m i).1 = .ok true ∧
      (removePdf env m i).2.vectorstores = eraseKey m.vectorstores i ∧
      (removePdf env m i).2.pdf_names = eraseKey m.pdf_names i ∧
      (removePdf env m i).2.documents = eraseKey m.documents i) := by
  constructor
  · intro hnone
    unfold removePdf
    rw [hnone]
    rfl
  · intro hv
    have hn : (m.pdf_names.lookup i).isSome = true := by
      rw [lookup_isSome_iff] at hv ⊢
      rwa [← hkeys]
    exact removePdf_present_ok env m i hfa hv hn

/-- Witness for C5: removing the known id `0` and the unknown id `7`
from the one-document state `addedOne`. -/
theorem remove_pdf_contract_witness :
    removePdf demoEnv addedOne 7 = (.ok false, addedOne) ∧
    (removePdf demoEnv addedOne 0).1 = .ok true ∧
    (removePdf demoEnv addedOne 0).2.documents = eraseKey addedOne.documents 0 :=
  ⟨(remove_pdf_contract demoEnv addedOne 7 (fun _ => rfl) (by decide)).1
      (by decide),
   ((remove_pdf_contract demoEnv addedOne 0 (fun _ => rfl) (by decide)).2
      (by decide)).1,
   ((remove_pdf_contract demoEnv addedOne 0 (fun _ => rfl) (by decide)).2
      (by decide)).2.2.2⟩

/-- C10: along every sequence of completed (non-raising) add/remove
operations, the three dicts of `PDFManager` keep exactly the same keys
in the same order, so every registered id has a name, stored segments
and a per-document index. -/
theorem registry_key_lists_agree (env : Env) (m : PDFManager)
    (hr : ReachableOk env m) :
    m.vectorstores.map Prod.fst = m.pdf_names.map Prod.fst ∧
    m.vectorstores.map Prod.fst = m.documents.map Prod.fst := by
  induction hr with
  | init => exact ⟨rfl, rfl⟩
  | add m c name i hm hok ih =>
    cases hp : env.pages c with
    | none =>
      have hst : (processPdf env m c name).2 = { m with nextId := m.nextId + 1 } := by
        unfold processPdf
        rw [hp]
      rw [hst]
      exact ih
    | some ps =>
      rcases hres : processPdf env m c name with ⟨r, m'⟩
      rw [hres] at hok
      dsimp only at hok
      subst hok
      obtain ⟨_, _, hd, hn, hv⟩ := processPdf_ok_spec env m c name ps i m' hp hres
      constructor
      · rw [hv, hn, List.map_append, List.map_append, ih.1]
        rfl
      · rw [hv, hd, List.map_append, List.map_append, ih.2]
        rfl
  | remove m i b hm hok ih =>
    rcases hres : removePdf env m i with ⟨r, m'⟩
    rw [hres] at hok
    dsimp only at hok
    subst hok
    rcases removePdf_ok_spec env m i b m' hres with ⟨_, rfl, _⟩ | hspec
    · exact ih
    · obtain ⟨_, _, hv, hn, hd, _⟩ := hspec
      constructor
      · rw [hv, hn, map_fst_eraseKey, map_fst_eraseKey, ih.1]
      · rw [hv, hd, map_fst_eraseKey, map_fst_eraseKey, ih.2]

/-- Witness for C10 at the reachable two-document state `addedTwo`. -/
theorem registry_key_lists_agree_witness :
    addedTwo.vectorstores.map Prod.fst = addedTwo.pdf_names.map Prod.fst ∧
    addedTwo.vectorstores.map Prod.fst = addedTwo.documents.map Prod.fst :=
  registry_key_lists_agree demoEnv addedTwo
    (ReachableOk.add addedOne ['y', 'o'] "b.pdf" 1
      (ReachableOk.add initManager ['h', 'i'] "a.pdf" 0
        ReachableOk.init (by decide))
      (by decide))

/-- C6: the claim that a failed ingestion retains no partial state fails
on the code: when index construction (`FAISS.from_documents`, line 55)
raises, the exception propagates but the chunks stored one line earlier
(`self.documents[pdf_id] = splits`, line 52) stay registered, while
`vectorstores` and `pdf_names` stay empty. -/
theorem failed_index_construction_retains_partial_state :
    (processPdf faissFailEnv initManager ['h', 'i'] "a.pdf").1 =
      .error .faiss ∧
    (processPdf faissFailEnv initManager ['h', 'i'] "a.pdf").2.documents =
      [(0, [segA])] ∧
    (processPdf faissFailEnv initManager ['h', 'i'] "a.pdf").2.vectorstores
      = [] ∧
    (processPdf faissFailEnv initManager ['h', 'i'] "a.pdf").2.pdf_names
      = [] := by decide

/-- C7: the claim that two ingestions of identical bytes with identical
configuration produce identical segment boundaries AND identical segment
metadata fails on the code: `process_pdf` stamps each page with a
freshly generated document id before splitting, so re-ingesting the same
bytes yields segments equal in content, source and page but different in
the `pdf_id` metadata field. -/
theorem rechunking_identical_bytes_output_differs :
    addedOne.documents = [(0, [segA])] ∧
    addedAgain.documents = [(0, [segA]), (1, [segB])] ∧
    segA ≠ segB ∧ segA.pdfId = 0 ∧ segB.pdfId = 1 ∧
    segA.content = segB.content ∧ segA.source = segB.source ∧
    segA.page = segB.page := by decide

/-- C7 (amended): two successive ingestions of identical bytes with
identical configuration produce segments with identical boundaries
(contents), identical source-name and page metadata, and differ only in
the owning document id, which is freshly generated per ingestion. -/
theorem rechunking_identical_bytes_same_except_id
    (env : Env) (m : PDFManager) (c : Text) (name : String) (ps : List Text)
    (i1 i2 : Nat) (m1 m2 : PDFManager)
    (hp : env.pages c = some ps)
    (h1 : processPdf env m c name = (.ok i1, m1))
    (h2 : processPdf env m1 c name = (.ok i2, m2)) :
    i1 ≠ i2 ∧
    m1.documents = m.documents ++
      [(i1, splitDocuments 1000 200 (stampPages ps name i1))] ∧
    m2.documents = m1.documents ++
      [(i2, splitDocuments 1000 200 (stampPages ps name i2))] ∧
    (splitDocuments 1000 200 (stampPages ps name i1)).map
        (fun s => (s.content, s.source, s.page)) =
      (splitDocuments 1000 200 (stampPages ps name i2)).map
        (fun s => (s.content, s.source, s.page)) := by
  obtain ⟨hi1, hn1, hd1, -, -⟩ := processPdf_ok_spec env m c name ps i1 m1 hp h1
  obtain ⟨hi2, hn2, hd2, -, -⟩ := processPdf_ok_spec env m1 c name ps i2 m2 hp h2
  exact ⟨by omega, hd1, hd2, splitDocuments_strip 1000 200 ps name i1 i2⟩

/-- Witness for the amended C7 at the concrete double ingestion of the
file `"hi"`. -/
theorem rechunking_identical_bytes_same_except_id_witness :
    (0 : Nat) ≠ 1 ∧
    addedOne.documents = initManager.documents ++
      [(0, splitDocuments 1000 200 (stampPages [['h', 'i']] "a.pdf" 0))] ∧
    addedAgain.documents = addedOne.documents ++
      [(1, splitDocuments 1000 200 (stampPages [['h', 'i']] "a.pdf" 1))] ∧
    (splitDocuments 1000 200 (stampPages [['h', 'i']] "a.pdf" 0)).map
        (fun s => (s.content, s.source, s.page)) =
      (splitDocuments 1000 200 (stampPages [['h', 'i']] "a.pdf" 1)).map
        (fun s => (s.content, s.source, s.page)) :=
  rechunking_identical_bytes_same_except_id demoEnv initManager ['h', 'i']
    "a.pdf" [['h', 'i']] 0 1 addedOne addedAgain rfl (by decide) (by decide)

/-- C8: a completed ingestion appends to the registry the chunks
obtained by splitting the stamped pages with the fixed configuration
`chunk_size = 1000`, `chunk_overlap = 200`, and every emitted segment
carries the generated document id, the display name, and content within
the target length. -/
theorem process_pdf_chunk_config_and_stamping
    (env : Env) (m : PDFManager) (c : Text) (name : String) (ps : List Text)
    (i : Nat) (m' : PDFManager)
    (hp : env.pages c = some ps)
    (h : processPdf env m c name = (.ok i, m')) :
    m'.documents = m.documents ++
      [(i, splitDocuments 1000 200 (stampPages ps name i))] ∧
    ∀ s ∈ splitDocuments 1000 200 (stampPages ps name i),
      s.pdfId = i ∧ s.source = name ∧ s.content.length ≤ 1000 := by
  obtain ⟨-, -, hd, -, -⟩ := processPdf_ok_spec env m c name ps i m' hp h
  refine ⟨hd, ?_⟩
  intro s hs
  obtain ⟨p, hpmem, hsrc, hid, hcmem⟩ := mem_splitDocuments 1000 200 _ s hs
  obtain ⟨hpsrc, hpid⟩ := mem_stampPages ps name i p hpmem
  exact ⟨by rw [hid, hpid], by rw [hsrc, hpsrc],
    chunkText_length_le 1000 200 _ (by omega) _ hcmem⟩

/-- Witness for C8 at the concrete ingestion of the file `"hi"`,
instantiating the per-segment clause at its only segment. -/
theorem process_pdf_chunk_config_and_stamping_witness :
    addedOne.documents = initManager.documents ++
      [(0, splitDocuments 1000 200 (stampPages [['h', 'i']] "a.pdf" 0))] ∧
    (segA.pdfId = 0 ∧ segA.source = "a.pdf" ∧ segA.content.length ≤ 1000) :=
  ⟨(process_pdf_chunk_config_and_stamping demoEnv initManager ['h', 'i']
      "a.pdf" [['h', 'i']] 0 addedOne rfl (by decide)).1,
   (process_pdf_chunk_config_and_stamping demoEnv initManager ['h', 'i']
      "a.pdf" [['h', 'i']] 0 addedOne rfl (by decide)).2 segA (by decide)⟩

/-- C9: with a live merged index, `get_response` advances the backend
call counter by exactly one, returns the backend's output verbatim
(through `StrOutputParser`) for the prompt holding the top-5 retrieved
segments and the literal query, the retrieved context is the 5 stored
segments of highest similarity (sorted by score, drawn from the store),
and a backend failure is returned to the caller unchanged — no retry. -/
theorem get_response_live_contract
    (llm : LLM) (calls : Nat) (score : Text → Text → Int)
    (v : VectorStore) (q : Text) :
    (getResponse llm calls score (some v) q).2 = calls + 1 ∧
    (getResponse llm calls score (some v) q).1 =
      (llm calls { context := topK score 5 q v, question := q }).map
        Message.content ∧
    (topK score 5 q v).length = min 5 v.docs.length ∧
    (∀ s ∈ topK score 5 q v, s ∈ v.docs) ∧
    (topK score 5 q v).Pairwise
      (fun a b => score q b.content ≤ score q a.content) ∧
    ∀ e, llm calls { context := topK score 5 q v, question := q } = .error e →
      (getResponse llm calls score (some v) q).1 = .error e := by
  refine ⟨rfl, rfl, ?_, ?_, ?_, ?_⟩
  · simp [topK, List.length_take, List.length_mergeSort]
  · intro s hs
    exact List.mem_mergeSort.mp ((List.take_sublist 5 _).subset hs)
  · have hsorted := @List.sorted_mergeSort Segment
      (fun a b : Segment => decide (score q b.content ≤ score q a.content))
      (fun a b c hab hbc => by
        simp only [decide_eq_true_eq] at *
        exact le_trans hbc hab)
      (fun a b => by
        simp only [Bool.or_eq_true, decide_eq_true_eq]
        exact le_total _ _)
      v.docs
    have htake := hsorted.sublist (List.take_sublist 5 _)
    exact htake.imp fun h => of_decide_eq_true h
  · intro e he
    show (llm calls _).map Message.content = .error e
    rw [he]
    rfl

/-- Witness for C9: a timing-out backend's failure is surfaced verbatim
and the call counter still advances by one. -/
theorem get_response_live_contract_witness :
    (getResponse timeoutLLM 0 demoEnv.score (some vsA) ['q']).2 = 0 + 1 ∧
    (getResponse timeoutLLM 0 demoEnv.score (some vsA) ['q']).1 =
      .error .timeout :=
  ⟨(get_response_live_contract timeoutLLM 0 demoEnv.score vsA ['q']).1,
   (get_response_live_contract timeoutLLM 0 demoEnv.score vsA
      ['q']).2.2.2.2.2 .timeout rfl⟩

end PdfRag
